import Mathlib

/-!
# wujie-fan-control: embedding of `src/wujie_fan.c`

The driver talks to the embedded controller (EC) through two legacy I/O ports.
Everything it does to the outside world is one of four things: `outb`, `inb`,
`mutex_lock(&i2ec_mutex)` and `mutex_unlock(&i2ec_mutex)`.  The embedding passes
an explicit world around: the state of the device behind the ports (a parameter)
together with the list of events performed so far, oldest first.

C integer types are modelled by `Nat`/`Int` with the narrowing conversions
written out (`u8`, `u16`, `u8_of_int`, `int_of_size_t`).
-/

namespace WujieFan

/-! ## Events, devices, worlds -/

/-- One elementary action of the driver.  `outb value port` follows the argument
order of the kernel primitive; `inb port value` records the byte that came back. -/
inductive Event where
  | outb (value port : Nat)
  | inb (port value : Nat)
  | lock
  | unlock
  deriving DecidableEq, Repr

/-- The hardware behind the I/O ports: how it reacts to a port write and what a
port read returns. -/
structure Device (σ : Type) where
  out : σ → Nat → Nat → σ
  inp : σ → Nat → Nat × σ

/-- Hardware state plus the events performed so far. -/
structure World (σ : Type) where
  hw : σ
  trace : List Event

/-- Conversion to `u8`. -/
def u8 (n : Nat) : Nat := n % 256

/-- Conversion to `u16`. -/
def u16 (n : Nat) : Nat := n % 65536

/-- Linux `EINVAL` (errno-base.h); the driver returns `-EINVAL`. -/
def EINVAL : Int := 22

/-- Kernel primitive `outb(u8 value, u16 port)`. -/
def outb {σ : Type} (dev : Device σ) (value port : Nat) (w : World σ) : World σ :=
  { hw := dev.out w.hw (u8 value) (u16 port)
    trace := w.trace ++ [Event.outb (u8 value) (u16 port)] }

/-- Kernel primitive `u8 inb(u16 port)`. -/
def inb {σ : Type} (dev : Device σ) (port : Nat) (w : World σ) : Nat × World σ :=
  (u8 (dev.inp w.hw (u16 port)).1,
   { hw := (dev.inp w.hw (u16 port)).2
     trace := w.trace ++ [Event.inb (u16 port) (u8 (dev.inp w.hw (u16 port)).1)] })

/-- Kernel primitive `mutex_lock(&i2ec_mutex)`. -/
def mutex_lock {σ : Type} (w : World σ) : World σ :=
  { w with trace := w.trace ++ [Event.lock] }

/-- Kernel primitive `mutex_unlock(&i2ec_mutex)`. -/
def mutex_unlock {σ : Type} (w : World σ) : World σ :=
  { w with trace := w.trace ++ [Event.unlock] }

/-! ## Register map (`ec_register_offsets_v0`) -/

def FAN1_RPM_LSB : Nat := 0x181e
def FAN1_RPM_MSB : Nat := 0x181f
def FAN2_RPM_LSB : Nat := 0x1820
def FAN2_RPM_MSB : Nat := 0x1821
def EXT_FAN_CTRL_EN : Nat := 0xd130
def EXT_FAN1_TARGET_RPM : Nat := 0xd16f
def EXT_FAN2_TARGET_RPM : Nat := 0xd133
def EXT_CPU_TEMP : Nat := 0xd118
def EXT_ENV_TEMP : Nat := 0xd115

/-! ## Port transport -/

def PNP_ADDR : Nat := 0x4e
def PNP_DATA : Nat := 0x4f
def SUPERIO_ADDR : Nat := 0x2e
def SUPERIO_DATA : Nat := 0x2f
def I2EC_ADDR_L : Nat := 0x10
def I2EC_ADDR_H : Nat := 0x11
def I2EC_DATA : Nat := 0x12

/-- `static void pnp_write(u8 addr, u8 data)`. -/
def pnp_write {σ : Type} (dev : Device σ) (addr data : Nat) (w : World σ) : World σ :=
  outb dev (u8 data) PNP_DATA (outb dev (u8 addr) PNP_ADDR w)

/-- `static u8 pnp_read(u8 addr)`. -/
def pnp_read {σ : Type} (dev : Device σ) (addr : Nat) (w : World σ) : Nat × World σ :=
  inb dev PNP_DATA (outb dev (u8 addr) PNP_ADDR w)

/-- `static void superio_write(u8 addr, u8 data)`. -/
def superio_write {σ : Type} (dev : Device σ) (addr data : Nat) (w : World σ) : World σ :=
  pnp_write dev SUPERIO_DATA (u8 data) (pnp_write dev SUPERIO_ADDR (u8 addr) w)

/-- `static u8 superio_read(u8 addr)`. -/
def superio_read {σ : Type} (dev : Device σ) (addr : Nat) (w : World σ) : Nat × World σ :=
  pnp_read dev SUPERIO_DATA (pnp_write dev SUPERIO_ADDR (u8 addr) w)

/-- `static void i2ec_write(u16 addr, u8 data)`. -/
def i2ec_write {σ : Type} (dev : Device σ) (addr data : Nat) (w : World σ) : World σ :=
  superio_write dev I2EC_DATA (u8 data)
    (superio_write dev I2EC_ADDR_H (u16 addr >>> 8)
      (superio_write dev I2EC_ADDR_L (u16 addr &&& 0xff) w))

/-- `static u8 i2ec_read(u16 addr)`. -/
def i2ec_read {σ : Type} (dev : Device σ) (addr : Nat) (w : World σ) : Nat × World σ :=
  superio_read dev I2EC_DATA
    (superio_write dev I2EC_ADDR_H (u16 addr >>> 8)
      (superio_write dev I2EC_ADDR_L (u16 addr &&& 0xff) w))

/-! ## Fan protocol -/

/-- `int fanctrl_enabled(void)`. -/
def fanctrl_enabled {σ : Type} (dev : Device σ) (w : World σ) : Int × World σ :=
  let r := i2ec_read dev EXT_FAN_CTRL_EN (mutex_lock w)
  (((u8 r.1 : Nat) : Int), mutex_unlock r.2)

/-- Line 136 of `read_fan_speed`: `speed = ((u16)msb << 8) | lsb`, a `u16` built
from the two `u8` values read. -/
def fan_raw_speed (msb lsb : Nat) : Nat :=
  u16 ((u16 (u8 msb) <<< 8) ||| u8 lsb)

/-- Lines 138-144 of `read_fan_speed`: the value returned for the `u16` speed. -/
def rpm_of_speed (speed : Nat) : Int :=
  if speed = 0 ∨ speed ≥ 0x4000 then 0
  else if speed < 0x80 then 9999
  else Int.tdiv 2156250 (speed : Int)

/-- `int read_fan_speed(size_t fan_id)`. -/
def read_fan_speed {σ : Type} (dev : Device σ) (fan_id : Nat) (w : World σ) : Int × World σ :=
  let go (lsb_addr msb_addr : Nat) : Int × World σ :=
    let m := i2ec_read dev msb_addr (mutex_lock w)
    let l := i2ec_read dev lsb_addr m.2
    (rpm_of_speed (fan_raw_speed m.1 l.1), mutex_unlock l.2)
  if fan_id = 1 then go FAN1_RPM_LSB FAN1_RPM_MSB
  else if fan_id = 2 then go FAN2_RPM_LSB FAN2_RPM_MSB
  else (-EINVAL, w)

/-- `int write_fan_speed(size_t fan_id, u8 speed)`. -/
def write_fan_speed {σ : Type} (dev : Device σ) (fan_id speed : Nat) (w : World σ) :
    Int × World σ :=
  let go (addr : Nat) : Int × World σ :=
    (0, mutex_unlock (i2ec_write dev addr (u8 speed) (mutex_lock w)))
  if fan_id = 1 then go EXT_FAN1_TARGET_RPM
  else if fan_id = 2 then go EXT_FAN2_TARGET_RPM
  else (-EINVAL, w)

/-! ## sysfs handlers -/

/-- `sprintf(buf, "%d", n)`: the text written and the number of characters. -/
def sprintf_d (n : Int) : String × Int :=
  (toString n, ((toString n).length : Int))

/-- `static int fan_show(size_t fan_id, char *buf)`; the buffer is returned next
to the `int` result and the world. -/
def fan_show {σ : Type} (dev : Device σ) (fan_id : Nat) (buf : String) (w : World σ) :
    Int × String × World σ :=
  let r := read_fan_speed dev fan_id w
  if r.1 < 0 then (-EINVAL, buf, r.2)
  else ((sprintf_d r.1).2, (sprintf_d r.1).1, r.2)

/-- `static ssize_t fanctl_en_show(...)`. -/
def fanctl_en_show {σ : Type} (dev : Device σ) (w : World σ) : Int × String × World σ :=
  let r := fanctrl_enabled dev w
  ((sprintf_d r.1).2, (sprintf_d r.1).1, r.2)

/-- Conversion of a `size_t` to `ssize_t`: reduction modulo 2^64 into
[-2^63, 2^63). -/
def ssize_t_of_size_t (n : Nat) : Int :=
  if n % 18446744073709551616 < 9223372036854775808 then ((n % 18446744073709551616 : Nat) : Int)
  else ((n % 18446744073709551616 : Nat) : Int) - 18446744073709551616

/-- `static ssize_t fanctl_en_store(..., const char *buf, size_t count)`, with
`scan` as in `fan_store`. -/
def fanctl_en_store {σ : Type} (dev : Device σ) (scan : String → Option Int)
    (buf : String) (count : Nat) (w : World σ) : Int × World σ :=
  match scan buf with
  | none => (-EINVAL, w)
  | some enable =>
    (ssize_t_of_size_t count,
      mutex_unlock (i2ec_write dev EXT_FAN_CTRL_EN (if enable ≠ 0 then 1 else 0) (mutex_lock w)))

/-! ## Reading traces -/

/-- The bytes returned by the port reads of a trace, in order. -/
def inbValues (t : List Event) : List Nat :=
  t.filterMap fun e => match e with
    | Event.inb _ v => some v
    | _ => none

/-- Port operations, as opposed to lock operations. -/
def isPortOp : Event → Bool
  | Event.outb _ _ => true
  | Event.inb _ _ => true
  | _ => false

/-- Runs the lock through a trace, starting with the lock held or not: `true`
when no port operation happens while the lock is free, the lock is never taken
while held nor released while free, and the lock is free at the end. -/
def lockedOnly : Bool → List Event → Bool
  | held, [] => !held
  | held, Event.lock :: es => !held && lockedOnly true es
  | held, Event.unlock :: es => held && lockedOnly false es
  | held, _ :: es => held && lockedOnly held es

/-- A trace that is one single lock hold: the lock is taken once, released once,
and `lockedOnly` accepts the trace from the free state. -/
def singleHold (t : List Event) : Bool :=
  t.count Event.lock == 1 && t.count Event.unlock == 1 && lockedOnly false t

/-- The eight port writes that latch the 16-bit address `a` into the I2EC
address registers: low byte to 0x10, then high byte to 0x11. -/
def latchEvents (a : Nat) : List Event :=
  [Event.outb 0x2e 0x4e, Event.outb 0x10 0x4f, Event.outb 0x2f 0x4e, Event.outb (a &&& 0xff) 0x4f,
   Event.outb 0x2e 0x4e, Event.outb 0x11 0x4f, Event.outb 0x2f 0x4e, Event.outb (a >>> 8) 0x4f]

/-- Port-level shape of one bridge write of `d` to address `a`. -/
def bridgeWriteEvents (a d : Nat) : List Event :=
  latchEvents a ++
  [Event.outb 0x2e 0x4e, Event.outb 0x12 0x4f, Event.outb 0x2f 0x4e, Event.outb d 0x4f]

/-- Port-level shape of one bridge read of address `a` that returned `v`. -/
def bridgeReadEvents (a v : Nat) : List Event :=
  latchEvents a ++
  [Event.outb 0x2e 0x4e, Event.outb 0x12 0x4f, Event.outb 0x2f 0x4e, Event.inb 0x4f v]

/-! ## A latching model of the hardware -/

/-- Hardware in which every level latches its address: the register selected on
the PNP port pair, the register selected on the SuperIO pair, the two I2EC
address bytes, and the EC as a byte-addressed register file. -/
structure Chip where
  pnpSel : Nat
  sioSel : Nat
  addrL : Nat
  addrH : Nat
  ec : Nat → Nat

/-- The EC address currently latched. -/
def Chip.addr (c : Chip) : Nat := (c.addrH <<< 8) ||| c.addrL

/-- A write to SuperIO register `c.sioSel`. -/
def Chip.sioWrite (c : Chip) (v : Nat) : Chip :=
  if c.sioSel = 0x10 then { c with addrL := v }
  else if c.sioSel = 0x11 then { c with addrH := v }
  else if c.sioSel = 0x12 then { c with ec := fun a => if a = c.addr then v else c.ec a }
  else c

/-- A read of SuperIO register `c.sioSel`. -/
def Chip.sioRead (c : Chip) : Nat :=
  if c.sioSel = 0x10 then c.addrL
  else if c.sioSel = 0x11 then c.addrH
  else if c.sioSel = 0x12 then c.ec c.addr
  else 0

/-- Port behaviour of the latching hardware. -/
def chipDev : Device Chip where
  out c v port :=
    if port = 0x4e then { c with pnpSel := v }
    else if port = 0x4f then
      if c.pnpSel = 0x2e then { c with sioSel := v }
      else if c.pnpSel = 0x2f then c.sioWrite v
      else c
    else c
  inp c port :=
    if port = 0x4e then (c.pnpSel, c)
    else if port = 0x4f then
      if c.pnpSel = 0x2e then (c.sioSel, c)
      else if c.pnpSel = 0x2f then (c.sioRead, c)
      else (0, c)
    else (0, c)

/-- A chip whose EC holds the tachometer count 1000 for fan 1 and zero elsewhere. -/
def chip0 : Chip :=
  { pnpSel := 0, sioSel := 0, addrL := 0, addrH := 0
    ec := fun a => if a = 0x181f then 3 else if a = 0x181e then 0xe8 else 0 }

/-- A chip whose EC holds the tachometer count 0x80 for both fans. -/
def chip128 : Chip :=
  { pnpSel := 0, sioSel := 0, addrL := 0, addrH := 0
    ec := fun a => if a = 0x181e ∨ a = 0x1820 then 0x80 else 0 }

/-- A chip whose EC holds the tachometer count 0x7f for fan 1. -/
def chip127 : Chip :=
  { pnpSel := 0, sioSel := 0, addrL := 0, addrH := 0
    ec := fun a => if a = 0x181e then 0x7f else 0 }

/-- The decoding rule as the specification words it, on the raw count `v`. -/
def decode (v : Nat) : Int :=
  if v = 0 ∨ v ≥ 0x4000 then 0
  else if 0 < v ∧ v < 0x80 then 9999
  else ((2156250 / v : Nat) : Int)

/-! ## Shared lemmas -/

theorem u8_lt (n : Nat) : u8 n < 256 := Nat.mod_lt _ (by decide)

theorem u8_of_lt {n : Nat} (h : n < 256) : u8 n = n := Nat.mod_eq_of_lt h

theorem u16_of_lt {n : Nat} (h : n < 65536) : u16 n = n := Nat.mod_eq_of_lt h

theorem u8_u8 (n : Nat) : u8 (u8 n) = u8 n := u8_of_lt (u8_lt n)

theorem u8_and_ff (n : Nat) : u8 (n &&& 0xff) = n &&& 0xff :=
  u8_of_lt (Nat.lt_of_le_of_lt Nat.and_le_right (by decide))

theorem u8_u16_shift (n : Nat) : u8 (u16 n >>> 8) = u16 n >>> 8 := by
  apply u8_of_lt
  rw [Nat.shiftRight_eq_div_pow]
  have : u16 n < 65536 := Nat.mod_lt _ (by decide)
  omega

theorem i2ec_write_trace {σ : Type} (dev : Device σ) (a d : Nat) (w : World σ) :
    (i2ec_write dev a d w).trace = w.trace ++ bridgeWriteEvents (u16 a) (u8 d) := by
  simp [i2ec_write, superio_write, pnp_write, outb, bridgeWriteEvents, latchEvents,
    u8_u8, u8_and_ff, u8_u16_shift, PNP_ADDR, PNP_DATA, SUPERIO_ADDR, SUPERIO_DATA,
    I2EC_ADDR_L, I2EC_ADDR_H, I2EC_DATA]
  simp [u8, u16]

theorem i2ec_read_trace {σ : Type} (dev : Device σ) (a : Nat) (w : World σ) :
    (i2ec_read dev a w).2.trace
      = w.trace ++ bridgeReadEvents (u16 a) (i2ec_read dev a w).1 := by
  simp [i2ec_read, superio_read, superio_write, pnp_read, pnp_write, outb, inb,
    bridgeReadEvents, latchEvents,
    u8_u8, u8_and_ff, u8_u16_shift, PNP_ADDR, PNP_DATA, SUPERIO_ADDR, SUPERIO_DATA,
    I2EC_ADDR_L, I2EC_ADDR_H, I2EC_DATA]
  simp [u8, u16]

theorem i2ec_read_lt {σ : Type} (dev : Device σ) (a : Nat) (w : World σ) :
    (i2ec_read dev a w).1 < 256 := by
  simp only [i2ec_read, superio_read, pnp_read, inb]
  exact u8_lt _

theorem inbValues_append (s t : List Event) :
    inbValues (s ++ t) = inbValues s ++ inbValues t := by
  simp [inbValues, List.filterMap_append]

theorem inbValues_bridgeRead (a v : Nat) : inbValues (bridgeReadEvents a v) = [v] := by
  simp [inbValues, bridgeReadEvents, latchEvents, List.filterMap_cons]

theorem inbValues_bridgeWrite (a d : Nat) : inbValues (bridgeWriteEvents a d) = [] := by
  simp [inbValues, bridgeWriteEvents, latchEvents, List.filterMap_cons]

theorem fan_raw_speed_eq {m l : Nat} (hm : m < 256) (hl : l < 256) :
    fan_raw_speed m l = m * 256 + l := by
  have h : 2 ^ 8 * m + l = 2 ^ 8 * m ||| l := Nat.mul_add_lt_is_or (by simpa using hl) m
  have hm16 : m < 65536 := by omega
  rw [fan_raw_speed, u8_of_lt hm, u8_of_lt hl, u16_of_lt hm16, Nat.shiftLeft_eq,
    Nat.mul_comm m, ← h, u16_of_lt (by omega)]

theorem raw_or_eq {m l : Nat} (hl : l < 256) : (m <<< 8) ||| l = m * 256 + l := by
  have h : 2 ^ 8 * m + l = 2 ^ 8 * m ||| l := Nat.mul_add_lt_is_or (by simpa using hl) m
  rw [Nat.shiftLeft_eq, Nat.mul_comm m, ← h]

/-- Shape of a valid `read_fan_speed` call: one lock hold containing the read of
the MSB register followed by the read of the LSB register. -/
theorem read_fan_speed_shape {σ : Type} (dev : Device σ) (hw : σ) (fan_id : Nat)
    (hfan : fan_id = 1 ∨ fan_id = 2) :
    ∃ m l, m < 256 ∧ l < 256 ∧
      (read_fan_speed dev fan_id ⟨hw, []⟩).2.trace
        = Event.lock ::
            (bridgeReadEvents (if fan_id = 1 then 0x181f else 0x1821) m
              ++ bridgeReadEvents (if fan_id = 1 then 0x181e else 0x1820) l
              ++ [Event.unlock]) ∧
      (read_fan_speed dev fan_id ⟨hw, []⟩).1 = rpm_of_speed (m * 256 + l) := by
  rcases hfan with h | h <;> subst h
  · refine ⟨(i2ec_read dev FAN1_RPM_MSB (mutex_lock ⟨hw, []⟩)).1,
      (i2ec_read dev FAN1_RPM_LSB (i2ec_read dev FAN1_RPM_MSB (mutex_lock ⟨hw, []⟩)).2).1,
      i2ec_read_lt _ _ _, i2ec_read_lt _ _ _, ?_, ?_⟩
    · simp [read_fan_speed, mutex_unlock, i2ec_read_trace, mutex_lock]
      simp [u16, FAN1_RPM_MSB, FAN1_RPM_LSB]
    · simp [read_fan_speed, fan_raw_speed_eq (i2ec_read_lt _ _ _) (i2ec_read_lt _ _ _)]
  · refine ⟨(i2ec_read dev FAN2_RPM_MSB (mutex_lock ⟨hw, []⟩)).1,
      (i2ec_read dev FAN2_RPM_LSB (i2ec_read dev FAN2_RPM_MSB (mutex_lock ⟨hw, []⟩)).2).1,
      i2ec_read_lt _ _ _, i2ec_read_lt _ _ _, ?_, ?_⟩
    · simp [read_fan_speed, mutex_unlock, i2ec_read_trace, mutex_lock]
      simp [u16, FAN2_RPM_MSB, FAN2_RPM_LSB]
    · simp [read_fan_speed, fan_raw_speed_eq (i2ec_read_lt _ _ _) (i2ec_read_lt _ _ _)]

/-- Shape of a valid `write_fan_speed` call. -/
theorem write_fan_speed_shape {σ : Type} (dev : Device σ) (hw : σ) (fan_id speed : Nat)
    (hfan : fan_id = 1 ∨ fan_id = 2) :
    (write_fan_speed dev fan_id speed ⟨hw, []⟩).2.trace
        = Event.lock ::
            (bridgeWriteEvents (if fan_id = 1 then 0xd16f else 0xd133) (u8 speed)
              ++ [Event.unlock]) ∧
      (write_fan_speed dev fan_id speed ⟨hw, []⟩).1 = 0 := by
  rcases hfan with h | h <;> subst h
  · simp [write_fan_speed, mutex_unlock, i2ec_write_trace, mutex_lock, u8_u8]
    simp [u16, EXT_FAN1_TARGET_RPM]
  · simp [write_fan_speed, mutex_unlock, i2ec_write_trace, mutex_lock, u8_u8]
    simp [u16, EXT_FAN2_TARGET_RPM]

theorem rpm_of_speed_eq_decode (v : Nat) : rpm_of_speed v = decode v := by
  unfold rpm_of_speed decode
  by_cases h0 : v = 0 ∨ v ≥ 0x4000
  · simp [h0]
  · have hpos : 0 < v := by omega
    by_cases h1 : v < 0x80
    · simp [h0, h1, hpos]
    · simp only [h0, h1, if_false, and_false]
      exact (Int.ofNat_tdiv 2156250 v).symm

theorem inbValues_read_shape (a b m l : Nat) :
    inbValues (Event.lock :: (bridgeReadEvents a m ++ bridgeReadEvents b l ++ [Event.unlock]))
      = [m, l] := by
  simp [inbValues, bridgeReadEvents, latchEvents, List.filterMap_cons]

theorem rpm_of_speed_mid {u : Nat} (hlo : 0x80 ≤ u) (hhi : u ≤ 0x3fff) :
    rpm_of_speed u = ((2156250 / u : Nat) : Int)
      ∧ 131 ≤ 2156250 / u ∧ 2156250 / u ≤ 16845 ∧ 2156250 / u ≠ 9999 := by
  have hpos : 0 < u := by omega
  have h1 : u * (2156250 / u) ≤ 2156250 := Nat.mul_div_le _ _
  have h2 : 2156250 < u * (2156250 / u + 1) := Nat.lt_mul_div_succ _ hpos
  have hle : 2156250 / u ≤ 2156250 / 0x80 := Nat.div_le_div_left hlo (by decide)
  have hge : 2156250 / 0x3fff ≤ 2156250 / u := Nat.div_le_div_left hhi hpos
  refine ⟨?_, ?_, ?_, ?_⟩
  · have a : ¬ (u = 0 ∨ u ≥ 0x4000) := by omega
    have b : ¬ u < 0x80 := by omega
    simp only [rpm_of_speed, a, b, if_false]
    exact (Int.ofNat_tdiv 2156250 u).symm
  · exact le_trans (by decide) hge
  · exact le_trans hle (by decide)
  · intro h
    rw [h] at h1 h2
    omega

theorem rpm_of_speed_cases (v : Nat) :
    (rpm_of_speed v = 9999 ↔ 0 < v ∧ v < 0x80)
      ∧ (rpm_of_speed v = 0 ↔ v = 0 ∨ v ≥ 0x4000)
      ∧ 0 ≤ rpm_of_speed v := by
  by_cases h0 : v = 0 ∨ v ≥ 0x4000
  · have e : rpm_of_speed v = 0 := by simp [rpm_of_speed, h0]
    rw [e]
    refine ⟨⟨fun h => absurd h (by decide), fun h => by omega⟩, ⟨fun _ => h0, fun _ => rfl⟩,
      le_refl _⟩
  · by_cases h1 : v < 0x80
    · have e : rpm_of_speed v = 9999 := by simp [rpm_of_speed, h0, h1]
      rw [e]
      refine ⟨⟨fun _ => ⟨by omega, h1⟩, fun _ => rfl⟩,
        ⟨fun h => absurd h (by decide), fun h => absurd h h0⟩, by decide⟩
    · obtain ⟨e, hlo, _, hne⟩ := rpm_of_speed_mid (u := v) (by omega) (by omega)
      rw [e]
      refine ⟨⟨fun h => absurd (Int.ofNat_inj.mp h) hne, fun h => by omega⟩,
        ⟨fun h => ?_, fun h => absurd h h0⟩, Int.ofNat_nonneg _⟩
      have : 2156250 / v = 0 := Int.ofNat_inj.mp h
      omega

theorem split_addr (a : Nat) : ((a >>> 8) <<< 8) ||| (a &&& 0xff) = a := by
  have hl : a &&& 255 < 256 := Nat.lt_of_le_of_lt Nat.and_le_right (by decide)
  rw [raw_or_eq hl, Nat.shiftRight_eq_div_pow]
  have : a &&& 255 = a % 256 := Nat.and_pow_two_sub_one_eq_mod a 8
  omega

theorem chip_i2ec_write_ec (c : Chip) (t : List Event) (a d : Nat)
    (ha : a < 65536) (hd : d < 256) :
    (i2ec_write chipDev a d ⟨c, t⟩).hw.ec a = d := by
  have e1 : u8 (a &&& 255) = a &&& 255 := u8_and_ff a
  have e2 : u8 (a >>> 8) = a >>> 8 := by
    have := u8_u16_shift a
    rwa [u16_of_lt ha] at this
  have e3 : ((a >>> 8) <<< 8) ||| (a &&& 255) = a := split_addr a
  simp [i2ec_write, superio_write, pnp_write, outb, chipDev, Chip.sioWrite, Chip.addr,
    PNP_ADDR, PNP_DATA, SUPERIO_ADDR, SUPERIO_DATA, I2EC_ADDR_L, I2EC_ADDR_H, I2EC_DATA,
    u16_of_lt ha, u8_of_lt hd, u8_u8, e1, e2, e3]
  simp [u8, u16, e3]

theorem chip_i2ec_read (w : World Chip) (a : Nat) (ha : a < 65536) :
    (i2ec_read chipDev a w).1 = u8 (w.hw.ec a)
      ∧ (i2ec_read chipDev a w).2.hw.ec = w.hw.ec := by
  have e1 : u8 (a &&& 255) = a &&& 255 := u8_and_ff a
  have e2 : u8 (a >>> 8) = a >>> 8 := by
    have := u8_u16_shift a
    rwa [u16_of_lt ha] at this
  have e3 : ((a >>> 8) <<< 8) ||| (a &&& 255) = a := split_addr a
  simp [i2ec_read, superio_read, superio_write, pnp_read, pnp_write, outb, inb, chipDev,
    Chip.sioWrite, Chip.sioRead, Chip.addr,
    PNP_ADDR, PNP_DATA, SUPERIO_ADDR, SUPERIO_DATA, I2EC_ADDR_L, I2EC_ADDR_H, I2EC_DATA,
    u16_of_lt ha, u8_u8, e1, e2, e3]
  simp [u8, u16, e3]

theorem raw_speed_bits {m l : Nat} (hm : m < 256) (hl : l < 256) :
    fan_raw_speed m l >>> 8 = m ∧ fan_raw_speed m l &&& 0xff = l := by
  rw [fan_raw_speed_eq hm hl, Nat.shiftRight_eq_div_pow]
  have : (m * 256 + l) &&& 255 = (m * 256 + l) % 256 := Nat.and_pow_two_sub_one_eq_mod _ 8
  constructor
  · omega
  · rw [this]; omega

theorem singleHold_write (a d : Nat) :
    singleHold (Event.lock :: (bridgeWriteEvents a d ++ [Event.unlock])) = true := by
  simp [singleHold, lockedOnly, bridgeWriteEvents, latchEvents, List.count_cons]

theorem singleHold_read (a v : Nat) :
    singleHold (Event.lock :: (bridgeReadEvents a v ++ [Event.unlock])) = true := by
  simp [singleHold, lockedOnly, bridgeReadEvents, latchEvents, List.count_cons]

theorem singleHold_read_read (a b m l : Nat) :
    singleHold
      (Event.lock :: (bridgeReadEvents a m ++ bridgeReadEvents b l ++ [Event.unlock])) = true := by
  simp [singleHold, lockedOnly, bridgeReadEvents, latchEvents, List.count_cons]

/-- Shape of a `fanctrl_enabled` call. -/
theorem fanctrl_enabled_shape {σ : Type} (dev : Device σ) (hw : σ) :
    ∃ v, v < 256 ∧
      (fanctrl_enabled dev ⟨hw, []⟩).2.trace
        = Event.lock :: (bridgeReadEvents 0xd130 v ++ [Event.unlock]) ∧
      (fanctrl_enabled dev ⟨hw, []⟩).1 = (v : Int) := by
  refine ⟨(i2ec_read dev EXT_FAN_CTRL_EN (mutex_lock ⟨hw, []⟩)).1, i2ec_read_lt _ _ _, ?_, ?_⟩
  · simp [fanctrl_enabled, mutex_unlock, i2ec_read_trace, mutex_lock]
    simp [u16, EXT_FAN_CTRL_EN]
  · simp [fanctrl_enabled, u8_of_lt (i2ec_read_lt _ _ _)]

/-- Shape of a `fanctl_en_store` call whose input scans. -/
theorem fanctl_en_store_shape {σ : Type} (dev : Device σ) (hw : σ)
    (scan : String → Option Int) (buf : String) (count : Nat) (e : Int)
    (hscan : scan buf = some e) :
    (fanctl_en_store dev scan buf count ⟨hw, []⟩).2.trace
      = Event.lock :: (bridgeWriteEvents 0xd130 (if e ≠ 0 then 1 else 0) ++ [Event.unlock]) := by
  have hb : u8 (if e ≠ 0 then 1 else 0) = (if e ≠ 0 then 1 else 0) := by
    split <;> rfl
  simp only [fanctl_en_store, hscan, mutex_unlock, i2ec_write_trace, mutex_lock, hb]
  simp [u16, EXT_FAN_CTRL_EN]

theorem chip_i2ec_read_ec (w : World Chip) (a : Nat) (ha : a < 65536) :
    (i2ec_read chipDev a w).2.hw.ec = w.hw.ec :=
  (chip_i2ec_read w a ha).2

/-- On the latching hardware the two bytes read are the contents of the MSB and
LSB registers of the fan. -/
theorem chip_read_fan_speed_bytes (c : Chip) (fan_id : Nat) (hfan : fan_id = 1 ∨ fan_id = 2) :
    inbValues (read_fan_speed chipDev fan_id ⟨c, []⟩).2.trace
      = [u8 (c.ec (if fan_id = 1 then 0x181f else 0x1821)),
         u8 (c.ec (if fan_id = 1 then 0x181e else 0x1820))] := by
  rcases hfan with h | h <;> subst h
  · simp [read_fan_speed, mutex_unlock, i2ec_read_trace, inbValues_append,
      inbValues_bridgeRead, FAN1_RPM_MSB, FAN1_RPM_LSB, chip_i2ec_read, mutex_lock]
    simp [inbValues, bridgeReadEvents, latchEvents]
  · simp [read_fan_speed, mutex_unlock, i2ec_read_trace, inbValues_append,
      inbValues_bridgeRead, FAN2_RPM_MSB, FAN2_RPM_LSB, chip_i2ec_read, mutex_lock]
    simp [inbValues, bridgeReadEvents, latchEvents]

/-! ## Claims -/

/-- C1: for fan 1 or 2 and any hardware, `read_fan_speed` performs exactly two
port reads, returning bytes `msb` then `lsb`, and returns
`decode ((msb << 8) | lsb)`, where `decode` is 0 for a count of 0 or at least
0x4000, 9999 for a count strictly between 0 and 0x80, and 2156250 divided by the
count otherwise; whatever pair of bytes the reads return, the result is the
decoding of that pair; on the latching hardware the pair is the content of the
fan's MSB and LSB registers; a count of 1000 decodes to 2156. -/
theorem read_fan_speed_decode {σ : Type} (dev : Device σ) (hw : σ) (c : Chip) (fan_id : Nat)
    (hfan : fan_id = 1 ∨ fan_id = 2) :
    (∃ msb lsb, msb < 256 ∧ lsb < 256
        ∧ inbValues (read_fan_speed dev fan_id ⟨hw, []⟩).2.trace = [msb, lsb]
        ∧ (read_fan_speed dev fan_id ⟨hw, []⟩).1 = decode ((msb <<< 8) ||| lsb))
      ∧ (∀ msb lsb, inbValues (read_fan_speed dev fan_id ⟨hw, []⟩).2.trace = [msb, lsb] →
          (read_fan_speed dev fan_id ⟨hw, []⟩).1 = decode ((msb <<< 8) ||| lsb))
      ∧ inbValues (read_fan_speed chipDev fan_id ⟨c, []⟩).2.trace
          = [u8 (c.ec (if fan_id = 1 then 0x181f else 0x1821)),
             u8 (c.ec (if fan_id = 1 then 0x181e else 0x1820))]
      ∧ (read_fan_speed chipDev fan_id ⟨c, []⟩).1
          = decode ((u8 (c.ec (if fan_id = 1 then 0x181f else 0x1821)) <<< 8)
              ||| u8 (c.ec (if fan_id = 1 then 0x181e else 0x1820)))
      ∧ decode 1000 = 2156 := by
  have key : ∀ {τ : Type} (d : Device τ) (h : τ),
      ∃ msb lsb, msb < 256 ∧ lsb < 256
        ∧ inbValues (read_fan_speed d fan_id ⟨h, []⟩).2.trace = [msb, lsb]
        ∧ (read_fan_speed d fan_id ⟨h, []⟩).1 = decode ((msb <<< 8) ||| lsb) := by
    intro τ d h
    obtain ⟨m, l, hm, hl, htr, hret⟩ := read_fan_speed_shape d h fan_id hfan
    refine ⟨m, l, hm, hl, ?_, ?_⟩
    · rw [htr, inbValues_read_shape]
    · rw [hret, raw_or_eq hl, rpm_of_speed_eq_decode]
  refine ⟨key dev hw, ?_, chip_read_fan_speed_bytes c fan_id hfan, ?_, by decide⟩
  · intro msb lsb hread
    obtain ⟨m, l, _, _, htr, hret⟩ := key dev hw
    rw [htr] at hread
    obtain ⟨rfl, rfl⟩ : m = msb ∧ l = lsb := by simpa using hread
    exact hret
  · obtain ⟨m, l, _, _, htr, hret⟩ := key chipDev c
    rw [chip_read_fan_speed_bytes c fan_id hfan] at htr
    obtain ⟨h1, h2⟩ : u8 (c.ec (if fan_id = 1 then 0x181f else 0x1821)) = m
        ∧ u8 (c.ec (if fan_id = 1 then 0x181e else 0x1820)) = l := by simpa using htr
    rw [hret, h1, h2]

theorem read_fan_speed_decode_witness :
    ((1 = 1 ∨ 1 = 2)
        ∧ inbValues (read_fan_speed chipDev 1 ⟨chip0, []⟩).2.trace = [3, 0xe8]
        ∧ (read_fan_speed chipDev 1 ⟨chip0, []⟩).1 = decode ((3 <<< 8) ||| 0xe8)
        ∧ (read_fan_speed chipDev 1 ⟨chip0, []⟩).1 = 2156)
      ∧ ((2 = 1 ∨ 2 = 2)
        ∧ inbValues (read_fan_speed chipDev 2 ⟨chip128, []⟩).2.trace = [0, 0x80]
        ∧ (read_fan_speed chipDev 2 ⟨chip128, []⟩).1 = decode ((0 <<< 8) ||| 0x80)
        ∧ (read_fan_speed chipDev 2 ⟨chip128, []⟩).1 = 16845) :=
  ⟨⟨Or.inl rfl, by decide,
      (read_fan_speed_decode chipDev chip0 chip0 1 (Or.inl rfl)).2.1 3 0xe8 (by decide),
      by decide⟩,
    ⟨Or.inr rfl, by decide,
      (read_fan_speed_decode chipDev chip128 chip128 2 (Or.inr rfl)).2.1 0 0x80 (by decide),
      by decide⟩⟩

/-- C2: for every fan id other than 1 and 2, `read_fan_speed` and
`write_fan_speed` return `-EINVAL` (-22) and leave the world exactly as it was:
no event is added to the trace (no `outb`, no `inb`, no lock operation) and the
hardware state is the one they started from. -/
theorem invalid_fan_id_rejected {σ : Type} (dev : Device σ) (w : World σ)
    (fan_id value : Nat) (h1 : fan_id ≠ 1) (h2 : fan_id ≠ 2) :
    read_fan_speed dev fan_id w = (-EINVAL, w)
      ∧ write_fan_speed dev fan_id value w = (-EINVAL, w)
      ∧ -EINVAL = -22 := by
  simp [read_fan_speed, write_fan_speed, h1, h2, EINVAL]

theorem invalid_fan_id_rejected_witness :
    (3 : Nat) ≠ 1 ∧ (3 : Nat) ≠ 2
      ∧ read_fan_speed chipDev 3 ⟨chip0, []⟩ = (-EINVAL, ⟨chip0, []⟩)
      ∧ write_fan_speed chipDev 3 77 ⟨chip0, []⟩ = (-EINVAL, ⟨chip0, []⟩)
      ∧ -EINVAL = -22 :=
  ⟨by decide, by decide,
    invalid_fan_id_rejected chipDev ⟨chip0, []⟩ 3 77 (by decide) (by decide)⟩

/-- C6 (as the code has it): for fan 1 or 2, when the reads return msb = 0x00 and
lsb = 0x80 (raw count 0x80), `read_fan_speed` returns 2156250 / 128 = 16845, the
quotient of the integer division. -/
theorem read_fan_speed_count_0x80 {σ : Type} (dev : Device σ) (hw : σ) (fan_id : Nat)
    (hfan : fan_id = 1 ∨ fan_id = 2)
    (hread : inbValues (read_fan_speed dev fan_id ⟨hw, []⟩).2.trace = [0x00, 0x80]) :
    (read_fan_speed dev fan_id ⟨hw, []⟩).1 = 16845
      ∧ (read_fan_speed dev fan_id ⟨hw, []⟩).1 = ((2156250 / 128 : Nat) : Int) := by
  obtain ⟨m, l, _, _, htr, hret⟩ := read_fan_speed_shape dev hw fan_id hfan
  rw [htr, inbValues_read_shape] at hread
  obtain ⟨rfl, rfl⟩ : m = 0 ∧ l = 0x80 := by simpa using hread
  rw [hret]
  exact ⟨by decide, by decide⟩

theorem read_fan_speed_count_0x80_witness :
    (2 = 1 ∨ 2 = 2)
      ∧ inbValues (read_fan_speed chipDev 2 ⟨chip128, []⟩).2.trace = [0x00, 0x80]
      ∧ (read_fan_speed chipDev 2 ⟨chip128, []⟩).1 = 16845
      ∧ (read_fan_speed chipDev 2 ⟨chip128, []⟩).1 = ((2156250 / 128 : Nat) : Int) :=
  ⟨Or.inr rfl, by decide,
    read_fan_speed_count_0x80 chipDev chip128 2 (Or.inr rfl) (by decide)⟩

/-- C6 as stated fails: with msb = 0x00 and lsb = 0x80 read for fan 1,
`read_fan_speed` returns 16845, not 16846. -/
theorem read_fan_speed_count_0x80_not_16846 :
    inbValues (read_fan_speed chipDev 1 ⟨chip128, []⟩).2.trace = [0x00, 0x80]
      ∧ (read_fan_speed chipDev 1 ⟨chip128, []⟩).1 = 16845
      ∧ (read_fan_speed chipDev 1 ⟨chip128, []⟩).1 ≠ 16846 := by
  decide

/-- C10: the three decoding branches never collide.  For a count in
[0x80, 0x3fff] the value returned lies in [131, 16845] and is not 9999.  For fan 1
or 2 and any hardware, `read_fan_speed` reads two bytes `msb` then `lsb` and,
with v = (msb << 8) | lsb, returns 9999 exactly when 0 < v < 0x80 and 0 exactly
when v = 0 or v >= 0x4000 (on the latching hardware v is the content of the
fan's MSB and LSB registers); it never returns a negative value, and `fan_show`
never returns `-EINVAL`. -/
theorem read_fan_speed_branches {σ : Type} (dev : Device σ) (hw : σ) (c : Chip)
    (fan_id : Nat) (buf : String) (hfan : fan_id = 1 ∨ fan_id = 2) :
    (∀ u : Nat, 0x80 ≤ u → u ≤ 0x3fff →
        rpm_of_speed u = ((2156250 / u : Nat) : Int)
          ∧ 131 ≤ rpm_of_speed u ∧ rpm_of_speed u ≤ 16845 ∧ rpm_of_speed u ≠ 9999)
      ∧ (∃ msb lsb, msb < 256 ∧ lsb < 256
          ∧ inbValues (read_fan_speed dev fan_id ⟨hw, []⟩).2.trace = [msb, lsb]
          ∧ ((read_fan_speed dev fan_id ⟨hw, []⟩).1 = 9999
              ↔ 0 < ((msb <<< 8) ||| lsb) ∧ ((msb <<< 8) ||| lsb) < 0x80)
          ∧ ((read_fan_speed dev fan_id ⟨hw, []⟩).1 = 0
              ↔ ((msb <<< 8) ||| lsb) = 0 ∨ ((msb <<< 8) ||| lsb) ≥ 0x4000))
      ∧ ((read_fan_speed chipDev fan_id ⟨c, []⟩).1 = 9999
          ↔ 0 < ((u8 (c.ec (if fan_id = 1 then 0x181f else 0x1821)) <<< 8)
                  ||| u8 (c.ec (if fan_id = 1 then 0x181e else 0x1820)))
            ∧ ((u8 (c.ec (if fan_id = 1 then 0x181f else 0x1821)) <<< 8)
                  ||| u8 (c.ec (if fan_id = 1 then 0x181e else 0x1820))) < 0x80)
      ∧ ((read_fan_speed chipDev fan_id ⟨c, []⟩).1 = 0
          ↔ ((u8 (c.ec (if fan_id = 1 then 0x181f else 0x1821)) <<< 8)
                  ||| u8 (c.ec (if fan_id = 1 then 0x181e else 0x1820))) = 0
            ∨ ((u8 (c.ec (if fan_id = 1 then 0x181f else 0x1821)) <<< 8)
                  ||| u8 (c.ec (if fan_id = 1 then 0x181e else 0x1820))) ≥ 0x4000)
      ∧ 0 ≤ (read_fan_speed dev fan_id ⟨hw, []⟩).1
      ∧ (fan_show dev fan_id buf ⟨hw, []⟩).1 ≠ -EINVAL
      ∧ (fan_show dev fan_id buf ⟨hw, []⟩).1
          = ((toString (read_fan_speed dev fan_id ⟨hw, []⟩).1).length : Int) := by
  have key : ∀ {τ : Type} (d : Device τ) (h : τ),
      ∃ msb lsb, msb < 256 ∧ lsb < 256
        ∧ inbValues (read_fan_speed d fan_id ⟨h, []⟩).2.trace = [msb, lsb]
        ∧ ((read_fan_speed d fan_id ⟨h, []⟩).1 = 9999
            ↔ 0 < ((msb <<< 8) ||| lsb) ∧ ((msb <<< 8) ||| lsb) < 0x80)
        ∧ ((read_fan_speed d fan_id ⟨h, []⟩).1 = 0
            ↔ ((msb <<< 8) ||| lsb) = 0 ∨ ((msb <<< 8) ||| lsb) ≥ 0x4000)
        ∧ 0 ≤ (read_fan_speed d fan_id ⟨h, []⟩).1 := by
    intro τ d h
    obtain ⟨m, l, hm, hl, htr, hret⟩ := read_fan_speed_shape d h fan_id hfan
    obtain ⟨c1, c2, c3⟩ := rpm_of_speed_cases (m * 256 + l)
    refine ⟨m, l, hm, hl, ?_, ?_, ?_, ?_⟩
    · rw [htr, inbValues_read_shape]
    · rw [hret, raw_or_eq hl]; exact c1
    · rw [hret, raw_or_eq hl]; exact c2
    · rw [hret]; exact c3
  obtain ⟨m, l, hm, hl, htr, h9, h0, hnn⟩ := key dev hw
  obtain ⟨m', l', _, _, htr', h9', h0', _⟩ := key chipDev c
  rw [chip_read_fan_speed_bytes c fan_id hfan] at htr'
  obtain ⟨e1, e2⟩ : u8 (c.ec (if fan_id = 1 then 0x181f else 0x1821)) = m'
      ∧ u8 (c.ec (if fan_id = 1 then 0x181e else 0x1820)) = l' := by simpa using htr'
  have hlt : ¬ (read_fan_speed dev fan_id ⟨hw, []⟩).1 < 0 := not_lt.mpr hnn
  have hshow : (fan_show dev fan_id buf ⟨hw, []⟩).1
      = ((toString (read_fan_speed dev fan_id ⟨hw, []⟩).1).length : Int) := by
    simp only [fan_show, hlt, if_false, sprintf_d]
  refine ⟨?_, ⟨m, l, hm, hl, htr, h9, h0⟩, ?_, ?_, hnn, ?_, hshow⟩
  · intro u hlo hhi
    obtain ⟨e, a, b, c⟩ := rpm_of_speed_mid hlo hhi
    rw [e]
    exact ⟨rfl, by exact_mod_cast a, by exact_mod_cast b, by exact_mod_cast c⟩
  · rw [e1, e2]; exact h9'
  · rw [e1, e2]; exact h0'
  · rw [hshow]
    intro h
    have : (0 : Int) ≤ ((toString (read_fan_speed dev fan_id ⟨hw, []⟩).1).length : Int) :=
      Int.ofNat_nonneg _
    simp only [EINVAL] at h
    omega

theorem read_fan_speed_branches_witness :
    ((1 = 1 ∨ 1 = 2)
        ∧ (read_fan_speed chipDev 1 ⟨chip127, []⟩).1 = 9999
        ∧ 0 ≤ (read_fan_speed chipDev 1 ⟨chip127, []⟩).1
        ∧ (fan_show chipDev 1 "" ⟨chip127, []⟩).1 ≠ -EINVAL)
      ∧ ((2 = 1 ∨ 2 = 2)
        ∧ (read_fan_speed chipDev 2 ⟨chip127, []⟩).1 = 0
        ∧ 0 ≤ (read_fan_speed chipDev 2 ⟨chip127, []⟩).1
        ∧ (fan_show chipDev 2 "" ⟨chip127, []⟩).1 ≠ -EINVAL) :=
  ⟨⟨Or.inl rfl,
      ((read_fan_speed_branches chipDev chip127 chip127 1 "" (Or.inl rfl)).2.2.1).mpr
        (by decide),
      (read_fan_speed_branches chipDev chip127 chip127 1 "" (Or.inl rfl)).2.2.2.2.1,
      (read_fan_speed_branches chipDev chip127 chip127 1 "" (Or.inl rfl)).2.2.2.2.2.1⟩,
    ⟨Or.inr rfl,
      ((read_fan_speed_branches chipDev chip127 chip127 2 "" (Or.inr rfl)).2.2.2.1).mpr
        (by decide),
      (read_fan_speed_branches chipDev chip127 chip127 2 "" (Or.inr rfl)).2.2.2.2.1,
      (read_fan_speed_branches chipDev chip127 chip127 2 "" (Or.inr rfl)).2.2.2.2.2.1⟩⟩

/-- C4 (as the code has it): `write_fan_speed` does not clamp.  For fan 1 or 2
and every byte `v` passed to it, it performs, inside one lock hold, one bridge
write of `v` itself to the fan's target-RPM register and returns 0; the byte
written is in [0, 127] exactly when `v` is. -/
theorem write_fan_speed_writes_value {σ : Type} (dev : Device σ) (hw : σ) (fan_id v : Nat)
    (hfan : fan_id = 1 ∨ fan_id = 2) (hv : v < 256) :
    (write_fan_speed dev fan_id v ⟨hw, []⟩).2.trace
        = Event.lock ::
            (bridgeWriteEvents (if fan_id = 1 then 0xd16f else 0xd133) v ++ [Event.unlock])
      ∧ (write_fan_speed dev fan_id v ⟨hw, []⟩).1 = 0 := by
  have h := write_fan_speed_shape dev hw fan_id v hfan
  rw [u8_of_lt hv] at h
  exact h

theorem write_fan_speed_writes_value_witness :
    (2 = 1 ∨ 2 = 2) ∧ 64 < 256
      ∧ (write_fan_speed chipDev 2 64 ⟨chip0, []⟩).2.trace
          = Event.lock :: (bridgeWriteEvents 0xd133 64 ++ [Event.unlock])
      ∧ (write_fan_speed chipDev 2 64 ⟨chip0, []⟩).1 = 0 :=
  ⟨Or.inr rfl, by decide, write_fan_speed_writes_value chipDev chip0 2 64 (Or.inr rfl) (by decide)⟩

/-- C4 as stated fails: `write_fan_speed 1 200` writes the byte 200, above 127, to
the target-RPM register of fan 1, which then holds 200. -/
theorem write_fan_speed_200_unclamped :
    (write_fan_speed chipDev 1 200 ⟨chip0, []⟩).2.trace
        = Event.lock :: (bridgeWriteEvents 0xd16f 200 ++ [Event.unlock])
      ∧ (write_fan_speed chipDev 1 200 ⟨chip0, []⟩).2.hw.ec 0xd16f = 200
      ∧ ¬ (write_fan_speed chipDev 1 200 ⟨chip0, []⟩).2.hw.ec 0xd16f ≤ 127 := by
  decide

/-- C5: on the latching hardware model, from every starting state, after
`fanctl_en_store` has scanned the integer `e` the EC register EXT_FAN_CTRL_EN
(0xd130) holds exactly 1 if `e` is nonzero and exactly 0 if `e` is zero, and a
`fanctrl_enabled` call made right after returns that same 1 or 0. -/
theorem enable_flag_normalised (c : Chip) (scan : String → Option Int) (buf : String)
    (count : Nat) (e : Int) (hscan : scan buf = some e)
    (_he : -2147483648 ≤ e ∧ e ≤ 2147483647) :
    (fanctl_en_store chipDev scan buf count ⟨c, []⟩).2.hw.ec 0xd130
        = (if e ≠ 0 then 1 else 0)
      ∧ (fanctrl_enabled chipDev (fanctl_en_store chipDev scan buf count ⟨c, []⟩).2).1
        = (if e ≠ 0 then 1 else 0) := by
  have hst : (fanctl_en_store chipDev scan buf count ⟨c, []⟩).2.hw.ec 0xd130
      = (if e ≠ 0 then 1 else 0) := by
    simp only [fanctl_en_store, hscan, mutex_unlock, mutex_lock, EXT_FAN_CTRL_EN]
    exact chip_i2ec_write_ec c _ 0xd130 _ (by decide) (by split <;> decide)
  refine ⟨hst, ?_⟩
  have hrd := (chip_i2ec_read
    (mutex_lock (fanctl_en_store chipDev scan buf count ⟨c, []⟩).2) 0xd130 (by decide)).1
  simp only [fanctrl_enabled, EXT_FAN_CTRL_EN, hrd, u8_u8]
  have hhw : (mutex_lock (fanctl_en_store chipDev scan buf count ⟨c, []⟩).2).hw
      = (fanctl_en_store chipDev scan buf count ⟨c, []⟩).2.hw := rfl
  rw [hhw, hst]
  by_cases h : e = 0 <;> simp [h, u8]

theorem enable_flag_normalised_witness :
    (fun _ : String => some (-7 : Int)) "-7" = some (-7)
      ∧ ((-2147483648 : Int) ≤ -7 ∧ (-7 : Int) ≤ 2147483647)
      ∧ (fanctl_en_store chipDev (fun _ => some (-7)) "-7" 2 ⟨chip0, []⟩).2.hw.ec 0xd130
          = (if (-7 : Int) ≠ 0 then 1 else 0)
      ∧ (fanctrl_enabled chipDev
          (fanctl_en_store chipDev (fun _ => some (-7)) "-7" 2 ⟨chip0, []⟩).2).1
          = (if (-7 : Int) ≠ 0 then 1 else 0) :=
  ⟨rfl, by decide, enable_flag_normalised chip0 (fun _ => some (-7)) "-7" 2 (-7) rfl (by decide)⟩

/-- C7: for every 16-bit address `a` and byte `d`, `i2ec_write a d` is three
SuperIO-level writes in order (0x10 gets `a & 0xff`, 0x11 gets `a >> 8`, 0x12
gets `d`) and `i2ec_read a` is the same two address writes followed by one
SuperIO-level read of 0x12 whose value it returns.  Every SuperIO-level access
is two PNP-level accesses (0x2e with the sub-register, then 0x2f), every
PNP-level access is two port operations (`outb` of the address to 0x4e, then
`outb` or `inb` on 0x4f), so `i2ec_write` is exactly 12 `outb` and `i2ec_read`
exactly 11 `outb` followed by 1 `inb`; the two address bytes recombine to `a`. -/
theorem i2ec_port_sequence {σ : Type} (dev : Device σ) (hw : σ) (a d : Nat)
    (ha : a < 65536) (hd : d < 256) :
    i2ec_write dev a d ⟨hw, []⟩
        = superio_write dev 0x12 d
            (superio_write dev 0x11 (a >>> 8) (superio_write dev 0x10 (a &&& 0xff) ⟨hw, []⟩))
      ∧ i2ec_read dev a ⟨hw, []⟩
        = superio_read dev 0x12
            (superio_write dev 0x11 (a >>> 8) (superio_write dev 0x10 (a &&& 0xff) ⟨hw, []⟩))
      ∧ (∀ (r v : Nat) (w : World σ),
          superio_write dev r v w = pnp_write dev 0x2f v (pnp_write dev 0x2e r w))
      ∧ (∀ (r : Nat) (w : World σ),
          superio_read dev r w = pnp_read dev 0x2f (pnp_write dev 0x2e r w))
      ∧ (∀ (r v : Nat) (w : World σ), r < 256 → v < 256 →
          (pnp_write dev r v w).trace = w.trace ++ [Event.outb r 0x4e, Event.outb v 0x4f])
      ∧ (∀ (r : Nat) (w : World σ), r < 256 →
          (pnp_read dev r w).2.trace
            = w.trace ++ [Event.outb r 0x4e, Event.inb 0x4f (pnp_read dev r w).1])
      ∧ (i2ec_write dev a d ⟨hw, []⟩).trace
        = [Event.outb 0x2e 0x4e, Event.outb 0x10 0x4f,
           Event.outb 0x2f 0x4e, Event.outb (a &&& 0xff) 0x4f,
           Event.outb 0x2e 0x4e, Event.outb 0x11 0x4f,
           Event.outb 0x2f 0x4e, Event.outb (a >>> 8) 0x4f,
           Event.outb 0x2e 0x4e, Event.outb 0x12 0x4f,
           Event.outb 0x2f 0x4e, Event.outb d 0x4f]
      ∧ (i2ec_read dev a ⟨hw, []⟩).2.trace
        = [Event.outb 0x2e 0x4e, Event.outb 0x10 0x4f,
           Event.outb 0x2f 0x4e, Event.outb (a &&& 0xff) 0x4f,
           Event.outb 0x2e 0x4e, Event.outb 0x11 0x4f,
           Event.outb 0x2f 0x4e, Event.outb (a >>> 8) 0x4f,
           Event.outb 0x2e 0x4e, Event.outb 0x12 0x4f,
           Event.outb 0x2f 0x4e, Event.inb 0x4f (i2ec_read dev a ⟨hw, []⟩).1]
      ∧ ((a >>> 8) <<< 8) ||| (a &&& 0xff) = a := by
  refine ⟨?_, ?_, ?_, ?_, ?_, ?_, ?_, ?_, split_addr a⟩
  · simp only [i2ec_write, u16_of_lt ha, u8_of_lt hd, I2EC_DATA, I2EC_ADDR_H, I2EC_ADDR_L]
  · simp only [i2ec_read, u16_of_lt ha, I2EC_DATA, I2EC_ADDR_H, I2EC_ADDR_L]
  · intro r v w
    simp only [superio_write, pnp_write, u8_u8, SUPERIO_DATA, SUPERIO_ADDR]
  · intro r w
    simp only [superio_read, pnp_write, u8_u8, SUPERIO_DATA, SUPERIO_ADDR]
  · intro r v w hr hv
    simp [pnp_write, outb, u8_u8, u8_of_lt hr, u8_of_lt hv, PNP_ADDR, PNP_DATA, u16]
  · intro r w hr
    simp [pnp_read, inb, outb, u8_u8, u8_of_lt hr, PNP_ADDR, PNP_DATA, u16]
  · rw [i2ec_write_trace, u16_of_lt ha, u8_of_lt hd]
    rfl
  · rw [i2ec_read_trace, u16_of_lt ha]
    rfl

theorem i2ec_port_sequence_witness :
    0xd16f < 65536 ∧ 64 < 256
      ∧ (i2ec_write chipDev 0xd16f 64 ⟨chip0, []⟩).trace
        = [Event.outb 0x2e 0x4e, Event.outb 0x10 0x4f,
           Event.outb 0x2f 0x4e, Event.outb (0xd16f &&& 0xff) 0x4f,
           Event.outb 0x2e 0x4e, Event.outb 0x11 0x4f,
           Event.outb 0x2f 0x4e, Event.outb (0xd16f >>> 8) 0x4f,
           Event.outb 0x2e 0x4e, Event.outb 0x12 0x4f,
           Event.outb 0x2f 0x4e, Event.outb 64 0x4f] :=
  ⟨by decide, by decide,
    (i2ec_port_sequence chipDev chip0 0xd16f 64 (by decide) (by decide)).2.2.2.2.2.2.1⟩

/-- C8: for fan 1 and for fan 2, `read_fan_speed` performs exactly two bridge
reads and nothing else on the ports, the MSB register first and the LSB register
second (fan 1: 0x181f then 0x181e; fan 2: 0x1821 then 0x1820); the first byte
read is bits 15..8 and the second byte bits 7..0 of the raw count that is
decoded; on the latching hardware model no EC register changes. -/
theorem read_fan_speed_msb_then_lsb {σ : Type} (dev : Device σ) (hw : σ) (c : Chip) :
    (∃ m l, m < 256 ∧ l < 256
        ∧ (read_fan_speed dev 1 ⟨hw, []⟩).2.trace
          = Event.lock ::
              (bridgeReadEvents 0x181f m ++ bridgeReadEvents 0x181e l ++ [Event.unlock])
        ∧ (read_fan_speed dev 1 ⟨hw, []⟩).1 = rpm_of_speed (fan_raw_speed m l)
        ∧ fan_raw_speed m l >>> 8 = m ∧ fan_raw_speed m l &&& 0xff = l)
      ∧ (∃ m l, m < 256 ∧ l < 256
        ∧ (read_fan_speed dev 2 ⟨hw, []⟩).2.trace
          = Event.lock ::
              (bridgeReadEvents 0x1821 m ++ bridgeReadEvents 0x1820 l ++ [Event.unlock])
        ∧ (read_fan_speed dev 2 ⟨hw, []⟩).1 = rpm_of_speed (fan_raw_speed m l)
        ∧ fan_raw_speed m l >>> 8 = m ∧ fan_raw_speed m l &&& 0xff = l)
      ∧ (read_fan_speed chipDev 1 ⟨c, []⟩).2.hw.ec = c.ec
      ∧ (read_fan_speed chipDev 2 ⟨c, []⟩).2.hw.ec = c.ec := by
  refine ⟨?_, ?_, ?_, ?_⟩
  · obtain ⟨m, l, hm, hl, htr, hret⟩ := read_fan_speed_shape dev hw 1 (Or.inl rfl)
    refine ⟨m, l, hm, hl, ?_, ?_, raw_speed_bits hm hl⟩
    · simpa using htr
    · rw [hret, fan_raw_speed_eq hm hl]
  · obtain ⟨m, l, hm, hl, htr, hret⟩ := read_fan_speed_shape dev hw 2 (Or.inr rfl)
    refine ⟨m, l, hm, hl, ?_, ?_, raw_speed_bits hm hl⟩
    · simpa using htr
    · rw [hret, fan_raw_speed_eq hm hl]
  · simp [read_fan_speed, mutex_unlock, mutex_lock, FAN1_RPM_LSB, FAN1_RPM_MSB,
      chip_i2ec_read_ec]
  · simp [read_fan_speed, mutex_unlock, mutex_lock, FAN2_RPM_LSB, FAN2_RPM_MSB,
      chip_i2ec_read_ec]

/-- C9: every exposed operation is one single lock hold.  In the trace of
`fanctrl_enabled`, of `read_fan_speed` and `write_fan_speed` for fan 1 and fan 2,
and of `fanctl_en_store` on an input that scans, the lock is taken exactly once
and released exactly once, every port operation lies between the two, no port
operation happens while the lock is free, and both bridge reads of
`read_fan_speed` lie in that same hold. -/
theorem operations_hold_lock_once {σ : Type} (dev : Device σ) (hw : σ) (v : Nat)
    (scan : String → Option Int) (buf : String) (count : Nat) (e : Int)
    (hscan : scan buf = some e) :
    singleHold (fanctrl_enabled dev ⟨hw, []⟩).2.trace = true
      ∧ singleHold (read_fan_speed dev 1 ⟨hw, []⟩).2.trace = true
      ∧ singleHold (read_fan_speed dev 2 ⟨hw, []⟩).2.trace = true
      ∧ singleHold (write_fan_speed dev 1 v ⟨hw, []⟩).2.trace = true
      ∧ singleHold (write_fan_speed dev 2 v ⟨hw, []⟩).2.trace = true
      ∧ singleHold (fanctl_en_store dev scan buf count ⟨hw, []⟩).2.trace = true
      ∧ (∃ m l, (read_fan_speed dev 1 ⟨hw, []⟩).2.trace
          = Event.lock ::
              (bridgeReadEvents 0x181f m ++ bridgeReadEvents 0x181e l ++ [Event.unlock]))
      ∧ (∃ m l, (read_fan_speed dev 2 ⟨hw, []⟩).2.trace
          = Event.lock ::
              (bridgeReadEvents 0x1821 m ++ bridgeReadEvents 0x1820 l ++ [Event.unlock])) := by
  obtain ⟨x, _, hx, _⟩ := fanctrl_enabled_shape dev hw
  obtain ⟨m1, l1, _, _, h1, _⟩ := read_fan_speed_shape dev hw 1 (Or.inl rfl)
  obtain ⟨m2, l2, _, _, h2, _⟩ := read_fan_speed_shape dev hw 2 (Or.inr rfl)
  have w1 := (write_fan_speed_shape dev hw 1 v (Or.inl rfl)).1
  have w2 := (write_fan_speed_shape dev hw 2 v (Or.inr rfl)).1
  have hs := fanctl_en_store_shape dev hw scan buf count e hscan
  refine ⟨?_, ?_, ?_, ?_, ?_, ?_, ⟨m1, l1, by simpa using h1⟩, ⟨m2, l2, by simpa using h2⟩⟩
  · rw [hx]; exact singleHold_read _ _
  · rw [h1]; exact singleHold_read_read _ _ _ _
  · rw [h2]; exact singleHold_read_read _ _ _ _
  · rw [w1]; exact singleHold_write _ _
  · rw [w2]; exact singleHold_write _ _
  · rw [hs]; exact singleHold_write _ _

theorem operations_hold_lock_once_witness :
    (fun _ : String => some (1 : Int)) "1" = some 1
      ∧ singleHold (fanctrl_enabled chipDev ⟨chip0, []⟩).2.trace = true
      ∧ singleHold (read_fan_speed chipDev 1 ⟨chip0, []⟩).2.trace = true :=
  ⟨rfl,
    (operations_hold_lock_once chipDev chip0 5 (fun _ => some 1) "1" 2 1 rfl).1,
    (operations_hold_lock_once chipDev chip0 5 (fun _ => some 1) "1" 2 1 rfl).2.1⟩

end WujieFan
